import Mathlib

/-!
Shallow embedding of the `601_service_repository` backend.

Two user subsystems exist in the source and are embedded separately:
* `src/main.py`: in-memory item list (`items_db`), in-memory user dict
  (`users_db`, keyed by username) and the HTTP handlers
  (`register_user`, `login_user`, item BREAD handlers);
* `src/repositories.py` / `src/services.py`: the SQLAlchemy-backed
  `UserRepository` and `UserService` over the `users` table of
  `src/models.py` (id, username, email, full_name, hashed_password,
  is_active; the server-assigned timestamps carry no program logic that
  any claim touches and are omitted).

Password hashing is delegated by the source to the external `passlib`
bcrypt backend, which is not part of the repository; it is modelled from
the spec (salted, one-way, malformed digests verify to false) with the
salt drawn by the caller made an explicit argument.
-/

namespace SvcRepo

/-! ## Password hasher (src/security.py, src/main.py; backend modelled from the spec) -/

/-- Modelled from the spec: the bcrypt backend behind
`pwd_context.hash` is not in `src/`. A digest is the marker `$2b$`,
a salt (unary, as a run of `x`), a `$` separator and the payload; each
call takes a fresh salt, so hashing the same plaintext twice yields
distinct digests, as bcrypt's per-call random salt does. -/
def hashPwChars (salt : Nat) (password : List Char) : List Char :=
  '$' :: '2' :: 'b' :: '$' :: (List.replicate salt 'x' ++ '$' :: password)

/-- `get_password_hash` of src/security.py (= `_hash_password` of
src/repositories.py and `get_password_hash` of src/main.py), with the
salt the backend would draw made an explicit first argument. -/
def get_password_hash (salt : Nat) (password : String) : String :=
  String.mk (hashPwChars salt password.toList)

/-- Modelled from the spec: recover the salt and payload from a
well-formed digest; `none` on anything malformed. -/
def parseDigest (digest : List Char) : Option (Nat × List Char) :=
  match digest with
  | '$' :: '2' :: 'b' :: '$' :: rest =>
    let saltLen := (rest.takeWhile (· == 'x')).length
    match rest.drop saltLen with
    | '$' :: payload => some (saltLen, payload)
    | _ => none
  | _ => none

/-- Modelled from the spec: `verify_password` of src/security.py and
src/main.py (`pwd_context.verify`). Per spec section 4.1, a malformed
digest signals a verification failure rather than a crash: the function
is total and returns `false` whenever the digest does not parse. -/
def verify_password (plain_password : String) (hashed_password : String) : Bool :=
  match parseDigest hashed_password.toList with
  | some (_, payload) => payload == plain_password.toList
  | none => false

/-! ## Item store and item endpoints (src/main.py) -/

/-- `Item` model of src/main.py. -/
structure Item where
  id : Int
  name : String
  description : Option String
deriving Repr, DecidableEq

/-- `CreateItem` request body of src/main.py. -/
structure CreateItem where
  name : String
  description : Option String
deriving Repr, DecidableEq

/-- The seeded `items_db` of src/main.py. -/
def initial_items_db : List Item :=
  [⟨1, "Laptop", some "High-performance laptop"⟩,
   ⟨2, "Mouse", some "Wireless optical mouse"⟩,
   ⟨3, "Keyboard", some "Mechanical keyboard"⟩]

/-- `get_next_item_id` of src/main.py:
`max(item.id for item in items_db) + 1 if items_db else 1`. -/
def get_next_item_id (items_db : List Item) : Int :=
  match items_db with
  | [] => 1
  | x :: xs => xs.foldl (fun acc it => max acc it.id) x.id + 1

/-- An HTTP error as raised by `HTTPException`: status code and detail. -/
structure HttpError where
  status_code : Nat
  detail : String
deriving Repr, DecidableEq

/-- `add_item` handler (POST /items) of src/main.py: assigns the next id,
appends, returns the created item (201). -/
def add_item (items_db : List Item) (item_data : CreateItem) : Item × List Item :=
  let new_id := get_next_item_id items_db
  let new_item : Item := ⟨new_id, item_data.name, item_data.description⟩
  (new_item, items_db ++ [new_item])

/-- `read_item` handler (GET /items/\x7bitem_id\x7d) of src/main.py:
first item with a matching id, else 404. -/
def read_item (items_db : List Item) (item_id : Int) : Except HttpError Item :=
  match items_db.find? (fun item => item.id == item_id) with
  | some item => .ok item
  | none => .error ⟨404, "Item not found"⟩

/-- `delete_item` handler (DELETE /items/\x7bitem_id\x7d) of src/main.py:
deletes the item at the first index whose id matches (204, modelled as
`.ok ()`), else 404 with the store untouched. -/
def delete_item (items_db : List Item) (item_id : Int) :
    Except HttpError Unit × List Item :=
  match items_db.findIdx? (fun item => item.id == item_id) with
  | none => (.error ⟨404, "Item not found"⟩, items_db)
  | some item_index => (.ok (), items_db.eraseIdx item_index)

/-! ## In-memory user dict and auth endpoints (src/main.py) -/

/-- `UserBase` of src/main.py (the public profile returned by register). -/
structure UserBase where
  username : String
  email : Option String
  full_name : Option String
deriving Repr, DecidableEq

/-- `UserCreate` of src/main.py, already past pydantic type checking but
prior to the `password_complexity` validator. -/
structure UserCreate where
  username : String
  email : Option String
  full_name : Option String
  password : String
deriving Repr, DecidableEq

/-- `UserLogin` of src/main.py. -/
structure UserLogin where
  username : String
  password : String
deriving Repr, DecidableEq

/-- `UserInDB` of src/main.py. -/
structure UserInDB where
  username : String
  email : Option String
  full_name : Option String
  hashed_password : String
deriving Repr, DecidableEq

/-- `users_db : Dict[str, UserInDB]` of src/main.py, as an insertion-order
association list with unique keys maintained by `dictInsert`. -/
abbrev UsersDb := List (String × UserInDB)

/-- Python dict assignment `users_db[k] = v`: overwrite in place if the
key is present, else append. -/
def dictInsert (k : String) (v : UserInDB) : UsersDb → UsersDb
  | [] => [(k, v)]
  | (k', v') :: rest =>
    if k' == k then (k, v) :: rest else (k', v') :: dictInsert k v rest

/-- `get_user` of src/main.py: `users_db.get(username)`. -/
def get_user (users_db : UsersDb) (username : String) : Option UserInDB :=
  (users_db.find? (fun kv => kv.1 == username)).map (·.2)

/-- `password_complexity` validator of `UserCreate` in src/main.py. The
character classes `[A-Z]`, `[a-z]` are the ASCII ranges; `\d` is modelled
as the decimal digits `0`-`9` (Python's `\d` additionally admits
non-ASCII Unicode decimal digits, which no claim exercises). -/
def password_complexity (v : String) : Except String String :=
  if v.length < 8 then
    .error "Password must be at least 8 characters long"
  else if !(v.toList.any fun c => 'A' ≤ c && c ≤ 'Z') then
    .error "Password must contain at least one uppercase letter"
  else if !(v.toList.any fun c => 'a' ≤ c && c ≤ 'z') then
    .error "Password must contain at least one lowercase letter"
  else if !(v.toList.any fun c => '0' ≤ c && c ≤ '9') then
    .error "Password must contain at least one digit"
  else
    .ok v

/-- `create_user_in_db` of src/main.py: hash, build `UserInDB`, store
under the username key. -/
def create_user_in_db (salt : Nat) (users_db : UsersDb) (user : UserCreate) :
    UserInDB × UsersDb :=
  let hashed_password := get_password_hash salt user.password
  let user_in_db : UserInDB :=
    ⟨user.username, user.email, user.full_name, hashed_password⟩
  (user_in_db, dictInsert user.username user_in_db users_db)

/-- Response of POST /register: 201 with the public profile, 400 from the
handler, or 422 from pydantic validation. -/
inductive RegisterResponse where
  | created (profile : UserBase)
  | badRequest (detail : String)
  | validationError (detail : String)
deriving Repr, DecidableEq

/-- `register_user` handler of src/main.py (body already validated):
rejects only a duplicate username, then creates and returns the profile. -/
def register_user (salt : Nat) (users_db : UsersDb) (user_data : UserCreate) :
    RegisterResponse × UsersDb :=
  match get_user users_db user_data.username with
  | some _ => (.badRequest "Username already registered", users_db)
  | none =>
    let r := create_user_in_db salt users_db user_data
    (.created ⟨r.1.username, r.1.email, r.1.full_name⟩, r.2)

/-- POST /register end to end: pydantic runs the `password_complexity`
validator before the handler body (422 on failure), then `register_user`. -/
def postRegister (salt : Nat) (users_db : UsersDb) (user_data : UserCreate) :
    RegisterResponse × UsersDb :=
  match password_complexity user_data.password with
  | .error msg => (.validationError msg, users_db)
  | .ok _ => register_user salt users_db user_data

/-- An HTTP error with headers, as raised by `HTTPException` in
`login_user` (the `WWW-Authenticate` header is part of the payload). -/
structure AuthError where
  status_code : Nat
  detail : String
  www_authenticate : String
deriving Repr, DecidableEq

/-- `login_user` handler (POST /login) of src/main.py: the same 401 error
value for an unknown username and for a failed password verification. -/
def login_user (users_db : UsersDb) (user_credentials : UserLogin) :
    Except AuthError String :=
  match get_user users_db user_credentials.username with
  | none =>
    .error ⟨401, "Incorrect username or password", "Bearer"⟩
  | some db_user =>
    if !(verify_password user_credentials.password db_user.hashed_password) then
      .error ⟨401, "Incorrect username or password", "Bearer"⟩
    else
      .ok ("Login successful for user: " ++ db_user.username)

/-! ## SQLAlchemy user model, repository and service
(src/models.py, src/repositories.py, src/services.py)

Database effects are made explicit: the `users` table is a list of rows
plus the auto-increment sequence, and each operation also returns the
ordered list of effects it performed (`DbEvent`), so that ordering
properties (pre-checks before hashing before persisting; number of
lookups) are provable. -/

/-- The `User` ORM model of src/models.py (`created_at` / `updated_at`
are server-assigned timestamps with no program logic and are omitted). -/
structure User where
  id : Int
  username : String
  email : String
  full_name : Option String
  hashed_password : String
  is_active : Bool
deriving Repr, DecidableEq

/-- The `users` table with its auto-increment id sequence. -/
structure Db where
  users : List User
  nextId : Int
deriving Repr, DecidableEq

/-- The observable effects of the repository layer, in order. -/
inductive DbEvent where
  | lookupById (user_id : Int)
  | lookupByUsername (username : String)
  | lookupByEmail (email : String)
  | hashPassword
  | insertRow
  | deleteRow (user_id : Int)
deriving Repr, DecidableEq

/-- Domain errors raised by the service (`ValueError`) or the storage
layer (`IntegrityError` on a unique-constraint violation at commit). -/
inductive ServiceError where
  | usernameTaken (username : String)
  | emailTaken (email : String)
  | integrityError
deriving Repr, DecidableEq

namespace UserRepository

/-- `UserRepository.get_by_id`:
`db.query(User).filter(User.id == user_id).first()`. -/
def get_by_id (db : Db) (user_id : Int) : Option User :=
  db.users.find? (fun u => u.id == user_id)

/-- `UserRepository.get_by_username`. -/
def get_by_username (db : Db) (username : String) : Option User :=
  db.users.find? (fun u => u.username == username)

/-- `UserRepository.get_by_email`. -/
def get_by_email (db : Db) (email : String) : Option User :=
  db.users.find? (fun u => u.email == email)

/-- `UserRepository.add`: hashes the password first, then commits; the
commit enforces the storage-level unique constraints on username and
email (`IntegrityError`), and on success the row receives the
store-assigned id. The salt the hash backend would draw is explicit. -/
def add (salt : Nat) (db : Db) (username email password : String)
    (full_name : Option String) (is_active : Bool) :
    Except ServiceError User × Db × List DbEvent :=
  let hashed_password := get_password_hash salt password
  if db.users.any (fun u => u.username == username || u.email == email) then
    (.error .integrityError, db, [.hashPassword])
  else
    let db_user : User :=
      ⟨db.nextId, username, email, full_name, hashed_password, is_active⟩
    (.ok db_user, ⟨db.users ++ [db_user], db.nextId + 1⟩,
      [.hashPassword, .insertRow])

/-- The partial field map (`**kwargs`) accepted by
`UserRepository.update`. A field holds `some v` when the key is present
with a non-`None` value, matching the `value is not None` guards; an
absent key and a `None` value act alike in the source. Every key is
applied through `hasattr`, so the primary key `id` is itself an
updatable attribute. (The `hashed_password` and timestamp columns, which
no caller passes, are left out.) -/
structure UpdateMap where
  password : Option String
  username : Option String
  email : Option String
  full_name : Option String
  is_active : Option Bool
  id : Option Int
deriving Repr, DecidableEq

/-- The field map with every key absent. -/
def UpdateMap.empty : UpdateMap := ⟨none, none, none, none, none, none⟩

/-- The `password` iteration step of `UserRepository.update`: re-hash
and store only when the new digest differs from the current one; the
flag component is the running `updated` flag. -/
def applyPassword (salt : Nat) (v : Option String) (s : User × Bool) :
    User × Bool :=
  match v with
  | none => s
  | some p =>
    if get_password_hash salt p ≠ s.1.hashed_password then
      ({ s.1 with hashed_password := get_password_hash salt p }, true)
    else s

/-- The `username` iteration step of `UserRepository.update`: `setattr`
only when the non-`None` value differs from the current one. -/
def applyUsername (v : Option String) (s : User × Bool) : User × Bool :=
  match v with
  | none => s
  | some x => if s.1.username ≠ x then ({ s.1 with username := x }, true) else s

/-- The `email` iteration step of `UserRepository.update`. -/
def applyEmail (v : Option String) (s : User × Bool) : User × Bool :=
  match v with
  | none => s
  | some x => if s.1.email ≠ x then ({ s.1 with email := x }, true) else s

/-- The `full_name` iteration step of `UserRepository.update`. -/
def applyFullName (v : Option String) (s : User × Bool) : User × Bool :=
  match v with
  | none => s
  | some x =>
    if s.1.full_name ≠ some x then ({ s.1 with full_name := some x }, true)
    else s

/-- The `is_active` iteration step of `UserRepository.update`. -/
def applyIsActive (v : Option Bool) (s : User × Bool) : User × Bool :=
  match v with
  | none => s
  | some x => if s.1.is_active ≠ x then ({ s.1 with is_active := x }, true) else s

/-- The `id` iteration step of `UserRepository.update`: the primary key
passes the same `hasattr`/`is not None` gate as every other attribute. -/
def applyId (v : Option Int) (s : User × Bool) : User × Bool :=
  match v with
  | none => s
  | some x => if s.1.id ≠ x then ({ s.1 with id := x }, true) else s

/-- `UserRepository.update`: `password` is re-hashed and stored only if
the new digest differs; every other present, non-`None` attribute is
written only if it differs from the current value; the returned flag is
the `updated` flag deciding whether a commit happens. The source iterates
the kwargs dict in insertion order; the per-key steps touch disjoint
columns, so composing them in a fixed order is equivalent. -/
def update (salt : Nat) (user : User) (kwargs : UpdateMap) : User × Bool :=
  applyId kwargs.id
    (applyIsActive kwargs.is_active
      (applyFullName kwargs.full_name
        (applyEmail kwargs.email
          (applyUsername kwargs.username
            (applyPassword salt kwargs.password (user, false))))))

/-- `UserRepository.delete`: looks the row up by id; if present, removes
it and reports `true`, else reports `false`. -/
def delete (db : Db) (user_id : Int) : Bool × Db × List DbEvent :=
  match get_by_id db user_id with
  | some _ =>
    (true, ⟨db.users.eraseP (fun u => u.id == user_id), db.nextId⟩,
      [.lookupById user_id, .deleteRow user_id])
  | none => (false, db, [.lookupById user_id])

end UserRepository

/-- Replace the first row satisfying `p` (the session-tracked object that
`UserRepository.update` mutated and committed). -/
def replaceFirst (p : User → Bool) (v : User) : List User → List User
  | [] => []
  | x :: xs => if p x then v :: xs else x :: replaceFirst p v xs

namespace UserService

/-- `UserService.create_user`: pre-checks username uniqueness, then email
uniqueness, each via a repository read, raising `ValueError` before any
hashing or write; only then delegates to `UserRepository.add` (which
hashes and persists). -/
def create_user (salt : Nat) (db : Db) (username email password : String)
    (full_name : Option String) (is_active : Bool) :
    Except ServiceError User × Db × List DbEvent :=
  match UserRepository.get_by_username db username with
  | some _ =>
    (.error (.usernameTaken username), db, [.lookupByUsername username])
  | none =>
    match UserRepository.get_by_email db email with
    | some _ =>
      (.error (.emailTaken email), db,
        [.lookupByUsername username, .lookupByEmail email])
    | none =>
      let r := UserRepository.add salt db username email password full_name is_active
      (r.1, r.2.1, [.lookupByUsername username, .lookupByEmail email] ++ r.2.2)

/-- The username re-check of `UserService.update_user`: a conflict holds
when a truthy (`if new_username` — "" is falsy in Python), changed
username is supplied and another row (not the record's own) carries it. -/
def usernameConflict (db : Db) (user_to_update : User) (user_id : Int)
    (v? : Option String) : Bool :=
  match v? with
  | some v =>
    if v != "" && v != user_to_update.username then
      match UserRepository.get_by_username db v with
      | some existing => existing.id != user_id
      | none => false
    else false
  | none => false

/-- The email re-check of `UserService.update_user`, analogous. -/
def emailConflict (db : Db) (user_to_update : User) (user_id : Int)
    (v? : Option String) : Bool :=
  match v? with
  | some v =>
    if v != "" && v != user_to_update.email then
      match UserRepository.get_by_email db v with
      | some existing => existing.id != user_id
      | none => false
    else false
  | none => false

/-- `UserService.update_user`: returns `none` when the id is absent;
re-checks uniqueness when a truthy, changed username or email is supplied
(a `ValueError` excludes the record's own row); then delegates to
`UserRepository.update` and commits the mutated row back into the table. -/
def update_user (salt : Nat) (db : Db) (user_id : Int)
    (kwargs : UserRepository.UpdateMap) :
    Except ServiceError (Option User) × Db :=
  match UserRepository.get_by_id db user_id with
  | none => (.ok none, db)
  | some user_to_update =>
    if usernameConflict db user_to_update user_id kwargs.username then
      (.error (.usernameTaken (kwargs.username.getD "")), db)
    else if emailConflict db user_to_update user_id kwargs.email then
      (.error (.emailTaken (kwargs.email.getD "")), db)
    else
      (.ok (some (UserRepository.update salt user_to_update kwargs).1),
        ⟨replaceFirst (fun u => u.id == user_id)
          (UserRepository.update salt user_to_update kwargs).1 db.users,
         db.nextId⟩)

/-- `UserService.delete_user`: one `get_by_id` read; `false` immediately
when absent (no delegation), else delegates to `UserRepository.delete`
and returns its result. -/
def delete_user (db : Db) (user_id : Int) : Bool × Db × List DbEvent :=
  match UserRepository.get_by_id db user_id with
  | none => (false, db, [.lookupById user_id])
  | some _ =>
    let r := UserRepository.delete db user_id
    (r.1, r.2.1, .lookupById user_id :: r.2.2)

end UserService

/-! ## Concrete fixtures used by witnesses and counterexamples -/

/-- A `users_db` of src/main.py holding one registered user whose email
is `shared@example.com`. -/
def c1_db : UsersDb :=
  [("alice", ⟨"alice", some "shared@example.com", none,
    get_password_hash 0 "Alicepw1"⟩)]

/-- A registration request reusing alice's email under a fresh username. -/
def c1_req : UserCreate :=
  ⟨"bob", some "shared@example.com", none, "Bobpass1"⟩

/-- A stored ORM user row with id 1. -/
def c2_user : User :=
  ⟨1, "alice", "alice@example.com", none, get_password_hash 0 "Alicepw1", true⟩

/-- A field map whose only key is the primary key `id`. -/
def c2_kwargs : UserRepository.UpdateMap := ⟨none, none, none, none, none, some 2⟩

/-- A field map whose only key is `email`. -/
def c2_kwargs_email : UserRepository.UpdateMap :=
  ⟨none, none, some "new@example.com", none, none, none⟩

/-- A one-user `users` table with the id sequence at 2. -/
def c3_db : Db := ⟨[c2_user], 2⟩

/-- A `users_db` of src/main.py for the login fixture. -/
def c4_db : UsersDb :=
  [("alice", ⟨"alice", none, none, get_password_hash 0 "Right1aa"⟩)]

/-! ## Helper lemmas -/

theorem foldlMax_bounds (xs : List Item) (init : Int) :
    init ≤ xs.foldl (fun acc it => max acc it.id) init ∧
    ∀ y ∈ xs, y.id ≤ xs.foldl (fun acc it => max acc it.id) init := by
  induction xs generalizing init with
  | nil => simp
  | cons x xs ih =>
    refine ⟨le_trans (le_max_left _ _) (ih (max init x.id)).1, ?_⟩
    intro y hy
    rcases List.mem_cons.mp hy with rfl | h
    · exact le_trans (le_max_right _ _) (ih (max init y.id)).1
    · exact (ih (max init x.id)).2 y h

theorem foldlMax_mem (xs : List Item) (init : Int) :
    xs.foldl (fun acc it => max acc it.id) init = init ∨
    ∃ y ∈ xs, xs.foldl (fun acc it => max acc it.id) init = y.id := by
  induction xs generalizing init with
  | nil => left; rfl
  | cons x xs ih =>
    rcases ih (max init x.id) with h | ⟨y, hy, hEq⟩
    · by_cases hc : init ≤ x.id
      · right
        exact ⟨x, List.mem_cons_self x xs, by
          simpa [max_eq_right hc] using h⟩
      · left
        simpa [max_eq_left (le_of_not_le hc)] using h
    · right
      exact ⟨y, List.mem_cons_of_mem x hy, hEq⟩

theorem findIdx_first_match {α : Type} (p : α → Bool) (pre : List α) (x : α)
    (post : List α) (hpre : ∀ y ∈ pre, p y = false) (hx : p x = true) :
    (pre ++ x :: post).findIdx? p = some pre.length := by
  induction pre with
  | nil => simp [List.findIdx?_cons, hx]
  | cons y ys ih =>
    have hy : p y = false := hpre y (List.mem_cons_self y ys)
    have ih' := ih (fun z hz => hpre z (List.mem_cons_of_mem y hz))
    simp [List.findIdx?_cons, List.findIdx?_succ, hy, ih']

theorem eraseIdx_at_join {α : Type} (pre : List α) (x : α) (post : List α) :
    (pre ++ x :: post).eraseIdx pre.length = pre ++ post := by
  induction pre with
  | nil => rfl
  | cons y ys ih => simp [List.eraseIdx, ih]

theorem takeWhile_replicate_marker (n : Nat) (cs : List Char) :
    (List.replicate n 'x' ++ '$' :: cs).takeWhile (· == 'x') =
      List.replicate n 'x' := by
  induction n with
  | zero => simp [List.takeWhile_cons]
  | succ k ih => simp [List.replicate_succ, List.takeWhile_cons, ih]

theorem parseDigest_hashPwChars (salt : Nat) (cs : List Char) :
    parseDigest (hashPwChars salt cs) = some (salt, cs) := by
  have h1 := takeWhile_replicate_marker salt cs
  have h2 : (List.replicate salt 'x' ++ '$' :: cs).drop salt = '$' :: cs := by
    have h0 := List.drop_left (List.replicate salt 'x') ('$' :: cs)
    rwa [List.length_replicate] at h0
  simp [parseDigest, hashPwChars, h1, List.length_replicate, h2]

theorem get_password_hash_inj (s s' : Nat) (p p' : String)
    (h : get_password_hash s p = get_password_hash s' p') : s = s' ∧ p = p' := by
  have hdata : hashPwChars s p.toList = hashPwChars s' p'.toList :=
    congrArg String.data h
  have hp := parseDigest_hashPwChars s p.toList
  rw [hdata, parseDigest_hashPwChars] at hp
  obtain ⟨h1, h2⟩ := Prod.mk.injEq .. ▸ Option.some.inj hp
  exact ⟨h1.symm, (String.ext h2.symm)⟩

theorem applyPassword_fst_id (salt : Nat) (v : Option String) (s : User × Bool) :
    (UserRepository.applyPassword salt v s).1.id = s.1.id := by
  cases v <;> (simp only [UserRepository.applyPassword]; try split)
  all_goals rfl

theorem applyUsername_fst_id (v : Option String) (s : User × Bool) :
    (UserRepository.applyUsername v s).1.id = s.1.id := by
  cases v <;> (simp only [UserRepository.applyUsername]; try split)
  all_goals rfl

theorem applyEmail_fst_id (v : Option String) (s : User × Bool) :
    (UserRepository.applyEmail v s).1.id = s.1.id := by
  cases v <;> (simp only [UserRepository.applyEmail]; try split)
  all_goals rfl

theorem applyFullName_fst_id (v : Option String) (s : User × Bool) :
    (UserRepository.applyFullName v s).1.id = s.1.id := by
  cases v <;> (simp only [UserRepository.applyFullName]; try split)
  all_goals rfl

theorem applyIsActive_fst_id (v : Option Bool) (s : User × Bool) :
    (UserRepository.applyIsActive v s).1.id = s.1.id := by
  cases v <;> (simp only [UserRepository.applyIsActive]; try split)
  all_goals rfl

theorem update_id_of_none (salt : Nat) (user : User)
    (kwargs : UserRepository.UpdateMap) (hid : kwargs.id = none) :
    (UserRepository.update salt user kwargs).1.id = user.id := by
  rw [UserRepository.update, hid]
  show (UserRepository.applyIsActive _ _).1.id = _
  rw [applyIsActive_fst_id, applyFullName_fst_id, applyEmail_fst_id,
    applyUsername_fst_id, applyPassword_fst_id]

theorem update_only_password (salt : Nat) (user : User) (p : String)
    (hne : get_password_hash salt p ≠ user.hashed_password) :
    (UserRepository.update salt user ⟨some p, none, none, none, none, none⟩).1 =
      { user with hashed_password := get_password_hash salt p } := by
  have h : UserRepository.update salt user ⟨some p, none, none, none, none, none⟩ =
      UserRepository.applyPassword salt (some p) (user, false) := rfl
  rw [h]
  simp only [UserRepository.applyPassword]
  rw [if_pos (show get_password_hash salt p ≠ (user, false).1.hashed_password
    from hne)]

theorem update_only_email_hp (salt : Nat) (user : User) (e : String) :
    (UserRepository.update salt user
      ⟨none, none, some e, none, none, none⟩).1.hashed_password =
      user.hashed_password := by
  have h : UserRepository.update salt user ⟨none, none, some e, none, none, none⟩ =
      UserRepository.applyEmail (some e) (user, false) := rfl
  rw [h]
  simp only [UserRepository.applyEmail]
  split <;> rfl

theorem get_user_dictInsert (db : UsersDb) (k : String) (v : UserInDB) :
    get_user (dictInsert k v db) k = some v := by
  induction db with
  | nil => simp [get_user, dictInsert, List.find?]
  | cons kv rest ih =>
    by_cases hk : kv.1 == k
    · simp [get_user, dictInsert, hk, List.find?]
    · simpa [get_user, dictInsert, hk, List.find?] using ih

theorem register_user_ne_validationError (salt : Nat) (db : UsersDb)
    (u : UserCreate) (msg : String) :
    (register_user salt db u).1 ≠ .validationError msg := by
  unfold register_user
  cases h : get_user db u.username <;> simp

theorem any_range_eq_false_iff (lo hi : Char) (v : String) :
    ((v.toList.any fun c => lo ≤ c && c ≤ hi) = false) ↔
    ∀ c ∈ v.toList, ¬(lo ≤ c ∧ c ≤ hi) := by
  rw [List.any_eq_false]
  constructor
  · intro h c hc hcon
    exact h c hc (by simp [hcon.1, hcon.2])
  · intro h c hc
    simp only [Bool.and_eq_true, decide_eq_true_eq, not_and]
    intro hlo hhi
    exact h c hc ⟨hlo, hhi⟩

theorem password_complexity_error_iff (v : String) :
    (∃ msg, password_complexity v = .error msg) ↔
    (v.length < 8 ∨
     (∀ c ∈ v.toList, ¬('A' ≤ c ∧ c ≤ 'Z')) ∨
     (∀ c ∈ v.toList, ¬('a' ≤ c ∧ c ≤ 'z')) ∨
     (∀ c ∈ v.toList, ¬('0' ≤ c ∧ c ≤ '9'))) := by
  have hA := any_range_eq_false_iff 'A' 'Z' v
  have ha := any_range_eq_false_iff 'a' 'z' v
  have h0 := any_range_eq_false_iff '0' '9' v
  unfold password_complexity
  split_ifs with h1 h2 h3 h4
  · exact iff_of_true ⟨_, rfl⟩ (Or.inl h1)
  · rw [Bool.not_eq_true'] at h2
    exact iff_of_true ⟨_, rfl⟩ (Or.inr (Or.inl (hA.mp h2)))
  · rw [Bool.not_eq_true'] at h3
    exact iff_of_true ⟨_, rfl⟩ (Or.inr (Or.inr (Or.inl (ha.mp h3))))
  · rw [Bool.not_eq_true'] at h4
    exact iff_of_true ⟨_, rfl⟩ (Or.inr (Or.inr (Or.inr (h0.mp h4))))
  · have h2t : (v.toList.any fun c => 'A' ≤ c && c ≤ 'Z') = true := by
      revert h2; cases (v.toList.any fun c => 'A' ≤ c && c ≤ 'Z') <;> simp
    have h3t : (v.toList.any fun c => 'a' ≤ c && c ≤ 'z') = true := by
      revert h3; cases (v.toList.any fun c => 'a' ≤ c && c ≤ 'z') <;> simp
    have h4t : (v.toList.any fun c => '0' ≤ c && c ≤ '9') = true := by
      revert h4; cases (v.toList.any fun c => '0' ≤ c && c ≤ '9') <;> simp
    refine iff_of_false (by simp) ?_
    rintro (h | h | h | h)
    · exact h1 h
    · obtain ⟨c, hc, hcp⟩ := List.any_eq_true.mp h2t
      exact h c hc (by simpa using hcp)
    · obtain ⟨c, hc, hcp⟩ := List.any_eq_true.mp h3t
      exact h c hc (by simpa using hcp)
    · obtain ⟨c, hc, hcp⟩ := List.any_eq_true.mp h4t
      exact h c hc (by simpa using hcp)

/-! ## Claims -/

/-- Claim C5: POST /items assigns the new item the id (max existing
id)+1, or 1 when the store is empty; the new id is strictly greater than
every prior item's id; and a POST /items followed by GET /items on the
new id returns exactly the created item, carrying the payload's name and
description. -/
theorem claim_C5 (items_db : List Item) (item_data : CreateItem) :
    (add_item [] item_data).1.id = 1 ∧
    (∀ x ∈ items_db, x.id < (add_item items_db item_data).1.id) ∧
    (items_db = [] ∨
      ∃ y ∈ items_db, (add_item items_db item_data).1.id = y.id + 1) ∧
    read_item (add_item items_db item_data).2 (add_item items_db item_data).1.id =
      .ok (add_item items_db item_data).1 ∧
    (add_item items_db item_data).1.name = item_data.name ∧
    (add_item items_db item_data).1.description = item_data.description := by
  have hgt : ∀ x ∈ items_db, x.id < (add_item items_db item_data).1.id := by
    intro x hx
    cases items_db with
    | nil => cases hx
    | cons z zs =>
      rcases List.mem_cons.mp hx with rfl | h
      · have := (foldlMax_bounds zs x.id).1
        simp only [add_item, get_next_item_id]
        omega
      · have := (foldlMax_bounds zs z.id).2 x h
        simp only [add_item, get_next_item_id]
        omega
  refine ⟨rfl, hgt, ?_, ?_, rfl, rfl⟩
  · cases items_db with
    | nil => exact Or.inl rfl
    | cons z zs =>
      refine Or.inr ?_
      rcases foldlMax_mem zs z.id with h | ⟨y, hy, hEq⟩
      · exact ⟨z, List.mem_cons_self z zs,
          by simp only [add_item, get_next_item_id]; omega⟩
      · exact ⟨y, List.mem_cons_of_mem z hy,
          by simp only [add_item, get_next_item_id]; omega⟩
  · have hnone :
        items_db.find? (fun item =>
          item.id == (add_item items_db item_data).1.id) = none := by
      rw [List.find?_eq_none]
      intro x hx
      have := hgt x hx
      simp only [beq_iff_eq]
      omega
    show read_item (items_db ++ [(add_item items_db item_data).1]) _ = _
    rw [read_item, List.find?_append, hnone]
    simp [List.find?]

/-- Claim C5 witness: on the seeded store, POST /items gives an id equal
to some prior maximal id plus one, and GET on the fresh id returns the
created item. -/
theorem claim_C5_witness :
    (∃ y ∈ initial_items_db,
      (add_item initial_items_db ⟨"Monitor", some "4K"⟩).1.id = y.id + 1) ∧
    read_item (add_item initial_items_db ⟨"Monitor", some "4K"⟩).2
        (add_item initial_items_db ⟨"Monitor", some "4K"⟩).1.id =
      .ok (add_item initial_items_db ⟨"Monitor", some "4K"⟩).1 :=
  ⟨((claim_C5 initial_items_db ⟨"Monitor", some "4K"⟩).2.2.1).resolve_left
      (by decide),
   (claim_C5 initial_items_db ⟨"Monitor", some "4K"⟩).2.2.2.1⟩

/-- Claim C10: DELETE /items on a present id removes exactly the first
item whose id matches, leaving every other item in its original relative
order; on an absent id it returns 404 with the store unchanged. -/
theorem claim_C10 (items_db : List Item) (item_id : Int) :
    ((∀ x ∈ items_db, x.id ≠ item_id) →
      delete_item items_db item_id =
        (.error ⟨404, "Item not found"⟩, items_db)) ∧
    (∀ pre x post, items_db = pre ++ x :: post → x.id = item_id →
      (∀ y ∈ pre, y.id ≠ item_id) →
      delete_item items_db item_id = (.ok (), pre ++ post)) := by
  constructor
  · intro habs
    have hnone : items_db.findIdx? (fun item => item.id == item_id) = none := by
      simp only [List.findIdx?_eq_none_iff]
      intro x hx
      simpa using habs x hx
    simp [delete_item, hnone]
  · rintro pre x post rfl hx hpre
    have hidx :
        (pre ++ x :: post).findIdx? (fun item => item.id == item_id) =
          some pre.length := by
      apply findIdx_first_match
      · intro y hy
        simpa using hpre y hy
      · simpa using hx
    simp [delete_item, hidx, eraseIdx_at_join]

/-- Claim C10 witness: deleting id 2 from the seeded store removes
exactly the Mouse row, and deleting an absent id leaves the store as is. -/
theorem claim_C10_witness :
    delete_item initial_items_db 2 =
      (.ok (), [⟨1, "Laptop", some "High-performance laptop"⟩,
                ⟨3, "Keyboard", some "Mechanical keyboard"⟩]) ∧
    delete_item initial_items_db 9 =
      (.error ⟨404, "Item not found"⟩, initial_items_db) :=
  ⟨(claim_C10 initial_items_db 2).2
      [⟨1, "Laptop", some "High-performance laptop"⟩]
      ⟨2, "Mouse", some "Wireless optical mouse"⟩
      [⟨3, "Keyboard", some "Mechanical keyboard"⟩]
      (by decide) (by decide) (by decide),
   (claim_C10 initial_items_db 9).1 (by decide)⟩

/-- Claim C1 counterexample: with alice already registered under
`shared@example.com`, a registration for the fresh username `bob` reusing
that exact email is not rejected: it returns 201 with bob's profile and
a record for bob is created in the store, refuting the claimed 400. -/
theorem claim_C1_counterexample :
    (∃ kv ∈ c1_db, kv.2.email = some "shared@example.com") ∧
    get_user c1_db "bob" = none ∧
    c1_req.email = some "shared@example.com" ∧
    ¬ ((postRegister 1 c1_db c1_req).1 = .badRequest "Username already registered" ∨
       (∃ msg, (postRegister 1 c1_db c1_req).1 = .validationError msg)) ∧
    (postRegister 1 c1_db c1_req).1 =
      .created ⟨"bob", some "shared@example.com", none⟩ ∧
    get_user (postRegister 1 c1_db c1_req).2 "bob" =
      some ⟨"bob", some "shared@example.com", none,
        get_password_hash 1 "Bobpass1"⟩ := by
  have h0 : (postRegister 1 c1_db c1_req).1 =
      .created ⟨"bob", some "shared@example.com", none⟩ := by decide
  refine ⟨⟨("alice", ⟨"alice", some "shared@example.com", none,
    get_password_hash 0 "Alicepw1"⟩), by decide, by decide⟩, by decide, by decide,
    ?_, h0, by decide⟩
  rintro (h | ⟨msg, h⟩) <;> rw [h0] at h <;> exact RegisterResponse.noConfusion h

/-- Claim C1 amended: POST /register checks only username uniqueness: a
request whose password passes complexity and whose username is already
registered gets 400 with the store unchanged, while any request with a
fresh username — even one reusing an existing user's email — is accepted
with 201 and a record for it is created. -/
theorem claim_C1_amended (salt : Nat) (users_db : UsersDb)
    (user_data : UserCreate)
    (hpw : password_complexity user_data.password = .ok user_data.password) :
    (∀ u, get_user users_db user_data.username = some u →
      postRegister salt users_db user_data =
        (.badRequest "Username already registered", users_db)) ∧
    (get_user users_db user_data.username = none →
      (postRegister salt users_db user_data).1 =
        .created ⟨user_data.username, user_data.email, user_data.full_name⟩ ∧
      get_user (postRegister salt users_db user_data).2 user_data.username =
        some ⟨user_data.username, user_data.email, user_data.full_name,
          get_password_hash salt user_data.password⟩) := by
  constructor
  · intro u hu
    simp [postRegister, hpw, register_user, hu]
  · intro hnone
    have hreg : postRegister salt users_db user_data =
        (.created ⟨user_data.username, user_data.email, user_data.full_name⟩,
         dictInsert user_data.username
           ⟨user_data.username, user_data.email, user_data.full_name,
             get_password_hash salt user_data.password⟩ users_db) := by
      simp [postRegister, hpw, register_user, hnone, create_user_in_db]
    rw [hreg]
    exact ⟨rfl, get_user_dictInsert users_db user_data.username _⟩

/-- Claim C1 witness for the amended theorem, at the counterexample
fixture: bob's registration over alice's email is accepted and stored. -/
theorem claim_C1_witness :
    (postRegister 1 c1_db c1_req).1 =
      .created ⟨c1_req.username, c1_req.email, c1_req.full_name⟩ ∧
    get_user (postRegister 1 c1_db c1_req).2 c1_req.username =
      some ⟨c1_req.username, c1_req.email, c1_req.full_name,
        get_password_hash 1 c1_req.password⟩ :=
  (claim_C1_amended 1 c1_db c1_req (by rfl)).2 (by decide)

/-- Claim C4: a login for a nonexistent username and a login for an
existing username with a failing password verification produce the very
same error value: status 401, detail "Incorrect username or password",
and the same WWW-Authenticate header. -/
theorem claim_C4 (users_db : UsersDb) (c1 c2 : UserLogin) (u : UserInDB)
    (h1 : get_user users_db c1.username = none)
    (h2 : get_user users_db c2.username = some u)
    (h3 : verify_password c2.password u.hashed_password = false) :
    login_user users_db c1 = login_user users_db c2 ∧
    login_user users_db c1 =
      .error ⟨401, "Incorrect username or password", "Bearer"⟩ := by
  unfold login_user
  rw [h1, h2]
  simp [h3]

/-- Claim C4 witness: with only alice registered, logging in as the
absent `bob` and logging in as `alice` with a wrong password give the
identical 401 error. -/
theorem claim_C4_witness :
    login_user c4_db ⟨"bob", "whatever"⟩ =
      login_user c4_db ⟨"alice", "Wrong1aa"⟩ :=
  (claim_C4 c4_db ⟨"bob", "whatever"⟩ ⟨"alice", "Wrong1aa"⟩
    ⟨"alice", none, none, get_password_hash 0 "Right1aa"⟩
    (by decide) (by decide) (by decide)).1

/-- Claim C7 (spec-modelled hasher): on any digest that is not a
well-formed bcrypt digest — equivalently, not in the image of the hash
function — `verify_password` is defined and returns `false` for every
plaintext, rather than raising. -/
theorem claim_C7 (plain digest : String)
    (h : parseDigest digest.toList = none) :
    verify_password plain digest = false ∧
    ¬ ∃ salt p, digest = get_password_hash salt p := by
  have h2 : parseDigest digest.data = none := h
  refine ⟨by simp [verify_password, h, h2], ?_⟩
  rintro ⟨salt, p, rfl⟩
  have hp : parseDigest (get_password_hash salt p).toList =
      some (salt, p.toList) := parseDigest_hashPwChars salt p.toList
  rw [h] at hp
  cases hp

/-- Claim C7 witness: the malformed digest "garbage" fails verification
against an arbitrary plaintext and is provably outside the hash image. -/
theorem claim_C7_witness :
    verify_password "whatever" "garbage" = false ∧
    ¬ ∃ salt p, "garbage" = get_password_hash salt p :=
  claim_C7 "whatever" "garbage" (by decide)

/-- Claim C9: POST /register answers a 422 password-complexity failure
exactly when the password is shorter than 8 characters, or has no
uppercase letter, or no lowercase letter, or no digit; every password
meeting all four conditions passes validation. -/
theorem claim_C9 (salt : Nat) (users_db : UsersDb) (user_data : UserCreate) :
    (∃ msg, (postRegister salt users_db user_data).1 = .validationError msg) ↔
    (user_data.password.length < 8 ∨
     (∀ c ∈ user_data.password.toList, ¬('A' ≤ c ∧ c ≤ 'Z')) ∨
     (∀ c ∈ user_data.password.toList, ¬('a' ≤ c ∧ c ≤ 'z')) ∨
     (∀ c ∈ user_data.password.toList, ¬('0' ≤ c ∧ c ≤ '9'))) := by
  rw [← password_complexity_error_iff]
  constructor
  · rintro ⟨msg, hmsg⟩
    cases hpc : password_complexity user_data.password with
    | error m => exact ⟨m, rfl⟩
    | ok w =>
      unfold postRegister at hmsg
      rw [hpc] at hmsg
      exact absurd hmsg
        (register_user_ne_validationError salt users_db user_data msg)
  · rintro ⟨msg, hmsg⟩
    refine ⟨msg, ?_⟩
    unfold postRegister
    rw [hmsg]

/-- Claim C9 witness: a password missing a digit is rejected with 422,
and one meeting all four conditions is not. -/
theorem claim_C9_witness :
    (∃ msg, (postRegister 0 [] ⟨"u", none, none, "Nodigits"⟩).1 =
      .validationError msg) ∧
    ¬ (∃ msg, (postRegister 0 [] ⟨"u", none, none, "Gooodpw1"⟩).1 =
      .validationError msg) :=
  ⟨(claim_C9 0 [] ⟨"u", none, none, "Nodigits"⟩).mpr (by decide),
   fun h => by
    have h2 := (claim_C9 0 [] ⟨"u", none, none, "Gooodpw1"⟩).mp h
    revert h2
    decide⟩

/-- Claim C2 counterexample: `UserRepository.update` applies any present,
non-`None` attribute through `hasattr`, the primary key included: the
field map whose only key is `id := 2` turns the stored user with id 1
into one with id 2, so the id is not preserved for every partial field
map. -/
theorem claim_C2_counterexample :
    ¬ ((UserRepository.update 0 c2_user c2_kwargs).1.id = c2_user.id) := by
  decide

/-- Claim C2 amended: for every partial field map that does not contain
the `id` key, `UserRepository.update` returns a user whose id equals the
id of the user passed in, and any user returned by
`UserService.update_user` keeps the looked-up id; a map containing `id`
can overwrite the primary key. -/
theorem claim_C2_amended (salt : Nat) (user : User)
    (kwargs : UserRepository.UpdateMap) (hid : kwargs.id = none) :
    (UserRepository.update salt user kwargs).1.id = user.id ∧
    (∀ db user_id u db',
      UserService.update_user salt db user_id kwargs = (.ok (some u), db') →
      u.id = user_id) := by
  refine ⟨update_id_of_none salt user kwargs hid, ?_⟩
  intro db user_id u db' h
  unfold UserService.update_user at h
  cases hfind : UserRepository.get_by_id db user_id with
  | none =>
    rw [hfind] at h
    simp at h
  | some utu =>
    rw [hfind] at h
    dsimp only at h
    have hfind' : db.users.find? (fun x => x.id == user_id) = some utu := hfind
    have hutu : utu.id = user_id := by
      have hb := List.find?_some hfind'
      simpa using hb
    by_cases hc1 :
        UserService.usernameConflict db utu user_id kwargs.username = true
    · rw [if_pos hc1] at h
      simp at h
    · rw [if_neg hc1] at h
      by_cases hc2 :
          UserService.emailConflict db utu user_id kwargs.email = true
      · rw [if_pos hc2] at h
        simp at h
      · rw [if_neg hc2] at h
        simp only [Prod.mk.injEq] at h
        obtain ⟨h1, h2⟩ := h
        have h3 := Option.some.inj (Except.ok.inj h1)
        rw [← h3, update_id_of_none salt utu kwargs hid]
        exact hutu

/-- Claim C2 witness: an email-only update of the stored user with id 1,
both at the repository and through the service, yields id 1 unchanged. -/
theorem claim_C2_witness :
    (UserRepository.update 3 c2_user c2_kwargs_email).1.id = c2_user.id ∧
    (⟨1, "alice", "new@example.com", none, get_password_hash 0 "Alicepw1",
      true⟩ : User).id = 1 :=
  ⟨(claim_C2_amended 3 c2_user c2_kwargs_email rfl).1,
   (claim_C2_amended 3 c2_user c2_kwargs_email rfl).2 c3_db 1
     ⟨1, "alice", "new@example.com", none, get_password_hash 0 "Alicepw1", true⟩
     ⟨[⟨1, "alice", "new@example.com", none, get_password_hash 0 "Alicepw1",
       true⟩], 2⟩ (by rfl)⟩

/-- Claim C3: `UserService.create_user` fails with the "username taken"
error after only the username lookup, and with the "email taken" error
after only the two lookups — in both cases before any hashing and before
any write, with the store unchanged — and when both pre-checks pass it
performs exactly lookup-username, lookup-email, hash, insert, in that
order, appending the new row. -/
theorem claim_C3 (salt : Nat) (db : Db) (username email password : String)
    (full_name : Option String) (is_active : Bool) :
    (∀ u, UserRepository.get_by_username db username = some u →
      UserService.create_user salt db username email password full_name is_active =
        (.error (.usernameTaken username), db, [.lookupByUsername username])) ∧
    (UserRepository.get_by_username db username = none →
      ∀ u, UserRepository.get_by_email db email = some u →
      UserService.create_user salt db username email password full_name is_active =
        (.error (.emailTaken email), db,
          [.lookupByUsername username, .lookupByEmail email])) ∧
    (UserRepository.get_by_username db username = none →
      UserRepository.get_by_email db email = none →
      UserService.create_user salt db username email password full_name is_active =
        (.ok ⟨db.nextId, username, email, full_name,
            get_password_hash salt password, is_active⟩,
          ⟨db.users ++ [⟨db.nextId, username, email, full_name,
            get_password_hash salt password, is_active⟩], db.nextId + 1⟩,
          [.lookupByUsername username, .lookupByEmail email,
            .hashPassword, .insertRow])) := by
  refine ⟨?_, ?_, ?_⟩
  · intro u hu
    unfold UserService.create_user
    rw [hu]
  · intro hu u he
    unfold UserService.create_user
    rw [hu, he]
  · intro hu he
    have hu' : db.users.find? (fun x => x.username == username) = none := hu
    have he' : db.users.find? (fun x => x.email == email) = none := he
    have hany : db.users.any
        (fun u => u.username == username || u.email == email) = false := by
      rw [List.any_eq_false]
      intro x hx
      have h1 := List.find?_eq_none.mp hu' x hx
      have h2 := List.find?_eq_none.mp he' x hx
      simp only [Bool.or_eq_true, not_or]
      exact ⟨h1, h2⟩
    unfold UserService.create_user
    rw [hu, he]
    unfold UserRepository.add
    rw [hany]
    rfl

/-- Claim C3 witness: with alice stored, creating a second "alice" fails
with the username-taken error after a single lookup, leaving the store
unchanged; with fresh data the full trace is lookups, hash, insert. -/
theorem claim_C3_witness :
    UserService.create_user 1 c3_db "alice" "new@example.com" "Newpass1"
        none true =
      (.error (.usernameTaken "alice"), c3_db, [.lookupByUsername "alice"]) ∧
    UserService.create_user 1 c3_db "bob" "bob@example.com" "Bobpass1"
        none true =
      (.ok ⟨2, "bob", "bob@example.com", none, get_password_hash 1 "Bobpass1",
          true⟩,
        ⟨c3_db.users ++ [⟨2, "bob", "bob@example.com", none,
          get_password_hash 1 "Bobpass1", true⟩], 3⟩,
        [.lookupByUsername "bob", .lookupByEmail "bob@example.com",
          .hashPassword, .insertRow]) :=
  ⟨(claim_C3 1 c3_db "alice" "new@example.com" "Newpass1" none true).1
      c2_user (by decide),
   (claim_C3 1 c3_db "bob" "bob@example.com" "Bobpass1" none true).2.2
      (by decide) (by decide)⟩

/-- Claim C6 (spec-modelled salted hasher): an update whose only key is
`password`, with a digest stored under a different salt (bcrypt draws a
fresh salt on every hash), leaves `username`, `email` and `full_name`
unchanged and changes `hashed_password`; an update whose only key is
`email` leaves `hashed_password` unchanged. -/
theorem claim_C6 (salt salt0 : Nat) (user : User) (p p0 : String)
    (hstored : user.hashed_password = get_password_hash salt0 p0)
    (hfresh : salt ≠ salt0) :
    ((UserRepository.update salt user
        ⟨some p, none, none, none, none, none⟩).1.username = user.username ∧
     (UserRepository.update salt user
        ⟨some p, none, none, none, none, none⟩).1.email = user.email ∧
     (UserRepository.update salt user
        ⟨some p, none, none, none, none, none⟩).1.full_name = user.full_name ∧
     (UserRepository.update salt user
        ⟨some p, none, none, none, none, none⟩).1.hashed_password ≠
       user.hashed_password) ∧
    (∀ e, (UserRepository.update salt user
        ⟨none, none, some e, none, none, none⟩).1.hashed_password =
      user.hashed_password) := by
  have hne : get_password_hash salt p ≠ user.hashed_password := by
    rw [hstored]
    intro hcontra
    exact hfresh (get_password_hash_inj salt salt0 p p0 hcontra).1
  rw [update_only_password salt user p hne]
  exact ⟨⟨rfl, rfl, rfl, hne⟩, fun e => update_only_email_hp salt user e⟩

/-- Claim C6 witness: at a stored digest drawn with salt 0 and an update
hashing with salt 1, the frame and change conclusions hold concretely. -/
theorem claim_C6_witness :
    ((UserRepository.update 1 c2_user
        ⟨some "NewPass1", none, none, none, none, none⟩).1.username =
      c2_user.username ∧
     (UserRepository.update 1 c2_user
        ⟨some "NewPass1", none, none, none, none, none⟩).1.email =
      c2_user.email ∧
     (UserRepository.update 1 c2_user
        ⟨some "NewPass1", none, none, none, none, none⟩).1.full_name =
      c2_user.full_name ∧
     (UserRepository.update 1 c2_user
        ⟨some "NewPass1", none, none, none, none, none⟩).1.hashed_password ≠
      c2_user.hashed_password) ∧
    (∀ e, (UserRepository.update 1 c2_user
        ⟨none, none, some e, none, none, none⟩).1.hashed_password =
      c2_user.hashed_password) :=
  claim_C6 1 0 c2_user "NewPass1" "Alicepw1" rfl (by decide)

/-- Claim C8: `UserService.delete_user` returns false immediately on an
absent id after the single service-level lookup, without delegating;
on a present id it delegates to `UserRepository.delete` and returns its
result, which is true exactly when a row with that id existed, the row
being erased while every other row is retained. -/
theorem claim_C8 (db : Db) (user_id : Int) :
    (UserRepository.get_by_id db user_id = none →
      UserService.delete_user db user_id =
        (false, db, [.lookupById user_id])) ∧
    (∀ u, UserRepository.get_by_id db user_id = some u →
      UserService.delete_user db user_id =
        ((UserRepository.delete db user_id).1,
         (UserRepository.delete db user_id).2.1,
         .lookupById user_id :: (UserRepository.delete db user_id).2.2) ∧
      (UserService.delete_user db user_id).1 = true ∧
      (UserService.delete_user db user_id).2.1.users =
        db.users.eraseP (fun x => x.id == user_id) ∧
      (∀ v ∈ db.users, v.id ≠ user_id →
        v ∈ (UserService.delete_user db user_id).2.1.users)) ∧
    ((UserRepository.delete db user_id).1 = true ↔
      ∃ u ∈ db.users, u.id = user_id) := by
  refine ⟨?_, ?_, ?_⟩
  · intro h
    unfold UserService.delete_user
    rw [h]
  · intro u hu
    have hdel : UserService.delete_user db user_id =
        ((UserRepository.delete db user_id).1,
         (UserRepository.delete db user_id).2.1,
         .lookupById user_id :: (UserRepository.delete db user_id).2.2) := by
      unfold UserService.delete_user
      rw [hu]
    have hrepo : UserRepository.delete db user_id =
        (true, ⟨db.users.eraseP (fun x => x.id == user_id), db.nextId⟩,
          [.lookupById user_id, .deleteRow user_id]) := by
      unfold UserRepository.delete
      rw [hu]
    refine ⟨hdel, ?_, ?_, ?_⟩
    · rw [hdel, hrepo]
    · rw [hdel, hrepo]
    · intro v hv hvne
      rw [hdel, hrepo]
      show v ∈ db.users.eraseP (fun x => x.id == user_id)
      exact (List.mem_eraseP_of_neg (by simpa using hvne)).mpr hv
  · cases hfind : UserRepository.get_by_id db user_id with
    | some u =>
      have hfind' : db.users.find? (fun x => x.id == user_id) = some u := hfind
      refine iff_of_true ?_ ?_
      · unfold UserRepository.delete
        rw [hfind]
      · exact ⟨u, List.mem_of_find?_eq_some hfind',
          by simpa using List.find?_some hfind'⟩
    | none =>
      have hfind' : db.users.find? (fun x => x.id == user_id) = none := hfind
      refine iff_of_false ?_ ?_
      · unfold UserRepository.delete
        rw [hfind]
        simp
      · rintro ⟨u, hu, rfl⟩
        have := List.find?_eq_none.mp hfind' u hu
        simp at this

/-- Claim C8 witness: deleting the absent id 5 from the one-user table
reports false after one lookup with the store unchanged; deleting id 1
reports true. -/
theorem claim_C8_witness :
    UserService.delete_user c3_db 5 = (false, c3_db, [.lookupById 5]) ∧
    (UserService.delete_user c3_db 1).1 = true :=
  ⟨(claim_C8 c3_db 5).1 (by decide),
   ((claim_C8 c3_db 1).2.1 c2_user (by decide)).2.1⟩

end SvcRepo
